import Mathlib

/-!
# easyhttp: a shallow embedding of `main.go`

The thirteen exported functions of package `easyhttp` are embedded as pure
functions from an explicit environment (`World`: what `http.NewRequest`,
`client.Do`, `ioutil.ReadAll` and `Body.Close` answer) to a `Run`: the
ordered list of effects the call performed and the way it ended (a returned
triple, or a run-time panic).

Go strings are byte sequences, so they are lists of `Fin 256`.  The pieces of
the Go standard library the functions call (`http.Header`, `SetBasicAuth`,
`base64.StdEncoding`) are modelled after their documented behaviour.
-/

set_option autoImplicit false

namespace Easyhttp

/-! ## Go strings and byte slices -/

/-- One byte. -/
abbrev Byte := Fin 256

/-- A Go `string`: an immutable sequence of bytes. -/
abbrev GoString := List Byte

/-- A Go `[]byte`. -/
abbrev Bytes := List Byte

/-- The Go string written by an ASCII string literal of the source. -/
def lit (s : String) : GoString := s.toList.map (fun c => Fin.ofNat c.toNat)

/-! ## `net/textproto`: canonical header keys -/

/-- Go `textproto.validHeaderFieldByte`: the RFC 7230 token characters, which
are the letters, the digits and fifteen punctuation marks, given by code. -/
def validHeaderFieldByte (c : Byte) : Bool :=
  (65 ≤ c.val && c.val ≤ 90) || (97 ≤ c.val && c.val ≤ 122) || (48 ≤ c.val && c.val ≤ 57) ||
  c.val = 33 || c.val = 35 || c.val = 36 || c.val = 37 || c.val = 38 || c.val = 39 ||
  c.val = 42 || c.val = 43 || c.val = 45 || c.val = 46 || c.val = 94 || c.val = 95 ||
  c.val = 96 || c.val = 124 || c.val = 126

/-- The loop of Go `textproto.canonicalMIMEHeaderKey`: the first letter and
every letter after a hyphen is upper-cased, every other letter lower-cased. -/
def canonicalMIMEHeaderKey : Bool → GoString → GoString
  | _, [] => []
  | upper, c :: cs =>
    (if upper && (97 ≤ c.val && c.val ≤ 122) then Fin.ofNat (c.val - 32)
     else if !upper && (65 ≤ c.val && c.val ≤ 90) then Fin.ofNat (c.val + 32)
     else c) :: canonicalMIMEHeaderKey (c.val = 45) cs

/-- Go `textproto.CanonicalMIMEHeaderKey`: a key holding a byte that is not
a token character is returned unchanged. -/
def CanonicalMIMEHeaderKey (s : GoString) : GoString :=
  if s.all validHeaderFieldByte then canonicalMIMEHeaderKey true s else s

/-! ## `net/http`: headers, requests, responses -/

/-- Go `http.Header`, a `map[string][]string`, as an association list with
at most one entry per key. -/
structure Header where
  entries : List (GoString × List GoString)
deriving DecidableEq, Repr

namespace Header

/-- The map index `h[k]`, `none` when the key is absent. -/
def index (h : Header) (k : GoString) : Option (List GoString) :=
  h.entries.lookup k

/-- The map assignment `h[k] = vs`. -/
def assign (h : Header) (k : GoString) (vs : List GoString) : Header :=
  ⟨(k, vs) :: h.entries.filter (fun e => !(e.1 == k))⟩

/-- Go `Header.Set`: replaces the values of the canonical key by `[value]`. -/
def Set (h : Header) (key value : GoString) : Header :=
  h.assign (CanonicalMIMEHeaderKey key) [value]

/-- Go `Header.Add`: appends `value` to the values of the canonical key. -/
def Add (h : Header) (key value : GoString) : Header :=
  h.assign (CanonicalMIMEHeaderKey key)
    (((h.index (CanonicalMIMEHeaderKey key)).getD []) ++ [value])

/-- Go `Header.Values`: all values of the canonical key, `[]` when absent. -/
def Values (h : Header) (key : GoString) : List GoString :=
  (h.index (CanonicalMIMEHeaderKey key)).getD []

/-- Go `Header.Get`: the first value of the canonical key, `""` when absent. -/
def Get (h : Header) (key : GoString) : GoString :=
  match h.Values key with
  | [] => []
  | v :: _ => v

end Header

/-- Go `url.URL`, as far as it is modelled: the scheme, and under `Rest` all
that `url.Parse` keeps of the text after the scheme (user, host, path, query
and fragment together), in the form `String()` writes it. -/
structure URL where
  Scheme : GoString
  Rest : GoString
deriving DecidableEq, Repr

/-- The loop of Go `url.getScheme`, with `seen` the bytes before the current
one: letters go on; a digit, `+`, `-` or `.` goes on unless it comes first;
a colon ends the scheme, and is an error (`none`) when it comes first; any
other byte means there is no scheme. -/
def getSchemeFrom (rawURL : GoString) : GoString → GoString → Option (GoString × GoString)
  | _, [] => some ([], rawURL)
  | seen, c :: cs =>
    if (97 ≤ c.val ∧ c.val ≤ 122) ∨ (65 ≤ c.val ∧ c.val ≤ 90) then
      getSchemeFrom rawURL (seen ++ [c]) cs
    else if (48 ≤ c.val ∧ c.val ≤ 57) ∨ c.val = 43 ∨ c.val = 45 ∨ c.val = 46 then
      if seen = [] then some ([], rawURL) else getSchemeFrom rawURL (seen ++ [c]) cs
    else if c.val = 58 then
      if seen = [] then none else some (seen, cs)
    else some ([], rawURL)

/-- Go `url.getScheme`: the scheme and the text after its colon, `none` for
the error "missing protocol scheme". -/
def getScheme (rawURL : GoString) : Option (GoString × GoString) :=
  getSchemeFrom rawURL [] rawURL

/-- Go `strings.ToLower` on ASCII text, which a scheme is. -/
def ToLower (s : GoString) : GoString :=
  s.map (fun c => if 65 ≤ c.val ∧ c.val ≤ 90 then Fin.ofNat (c.val + 32) else c)

/-- Go `(*URL).String`: the scheme and a colon when there is a scheme, then
the rest. -/
def URL.String (u : URL) : GoString :=
  (if u.Scheme = [] then [] else u.Scheme ++ lit ":") ++ u.Rest

/-- The fields of Go `http.Request` the package touches.  `URL` is the parsed
URL `http.NewRequest` stores; `Body` is `none` for a nil body reader. -/
structure Request where
  Method : GoString
  URL : URL
  Header : Header
  Body : Option Bytes
deriving DecidableEq, Repr

/-- The stream behind `resp.Body`, identified by a handle. -/
structure BodyStream where
  handle : Nat
deriving DecidableEq, Repr

/-- Go `http.Response`: status code, headers and the body stream. -/
structure Response where
  StatusCode : Nat
  Header : Header
  Body : BodyStream
deriving DecidableEq, Repr

/-- A non-nil Go `error` value. -/
structure GoError where
  code : Nat
deriving DecidableEq, Repr

/-- Go `time.Duration`, in nanoseconds. -/
abbrev Duration := Nat

/-- Go `time.Second`. -/
def Second : Duration := 1000000000

/-- Go `http.Client`, of which the package sets `Timeout` only. -/
structure Client where
  Timeout : Duration
deriving DecidableEq, Repr

/-- What `client.Do` answers: a response with a nil error, or an error. -/
inductive DoResult where
  | ok (resp : Response)
  | fail (err : GoError)
deriving DecidableEq, Repr

/-- The environment of one call: the answers of the library and the network.
`newRequestErr method url` is the error `http.NewRequest` reports (an invalid
method or an unparsable URL), `parseRest` is what `url.Parse` makes of the
text after the scheme, as `String()` writes it (empty port removed, path
escaped), `readAll` gives the bytes read and the error that stopped the
read, `close` the error of `Body.Close`. -/
structure World where
  newRequestErr : GoString → GoString → Option GoError
  parseRest : GoString → GoString
  roundTrip : Client → Request → DoResult
  readAll : BodyStream → Bytes × Option GoError
  close : BodyStream → Option GoError

/-- The effects a call performs, in order. -/
inductive Event where
  | Do (client : Client) (request : Request)
  | ReadAll (body : BodyStream)
  | Close (body : BodyStream)
  | Println (msg : GoString)
deriving DecidableEq, Repr

/-- How a call ends: it returns `(body, resp, err)`, each possibly nil, or
it panics on a nil pointer dereference. -/
inductive Outcome where
  | returned (body : Option Bytes) (resp : Option Response) (err : Option GoError)
  | panicked
deriving DecidableEq, Repr

/-- One execution of an operation. -/
structure Run where
  events : List Event
  outcome : Outcome
deriving DecidableEq, Repr

/-- Go `url.Parse`, where it succeeds: the scheme found by `getScheme` is
lower-cased, the text after it is parsed by the library.  Whether the parse
fails is the answer `newRequestErr` of the world; where `getScheme` reports
its error the parse always fails, and the value here is not used. -/
def Parse (w : World) (rawURL : GoString) : URL :=
  match getScheme rawURL with
  | some (scheme, rest) => { Scheme := ToLower scheme, Rest := w.parseRest rest }
  | none => { Scheme := [], Rest := w.parseRest rawURL }

/-- Go `http.NewRequest`: on failure the request is nil and the error set; on
success the request has the method, the parsed URL, an empty header map and
the body given. -/
def NewRequest (w : World) (method url : GoString) (body : Option Bytes) :
    Option Request × Option GoError :=
  match w.newRequestErr method url with
  | some e => (none, some e)
  | none => (some { Method := method, URL := Parse w url, Header := ⟨[]⟩, Body := body }, none)

/-! ## `encoding/base64`: the standard encoding -/

/-- Go `base64.encodeStd`, the alphabet of RFC 4648 section 4. -/
def encodeStd : GoString :=
  lit "ABCDEFGHIJKLMNOPQRSTUVWXYZabcdefghijklmnopqrstuvwxyz0123456789+/"

/-- Go `base64.StdPadding`, the byte `=`. -/
def StdPadding : Byte := 61

/-- The alphabet character of a six-bit value: `enc.encode[v]`. -/
def encodeChar (v : Nat) : Byte := encodeStd.getD v 0

/-- The six-bit value of an alphabet character: `enc.decodeMap[c]`, `none`
for a byte outside the alphabet. -/
def decodeChar (c : Byte) : Option Nat :=
  if encodeStd.indexOf c < 64 then some (encodeStd.indexOf c) else none

/-- Go `base64.StdEncoding.EncodeToString`: three bytes become four alphabet
characters; a remainder of one or two bytes is padded with `=`. -/
def EncodeToString : Bytes → GoString
  | [] => []
  | [b0] =>
    let val := b0.val * 65536
    [encodeChar (val / 262144 % 64), encodeChar (val / 4096 % 64), StdPadding, StdPadding]
  | [b0, b1] =>
    let val := b0.val * 65536 + b1.val * 256
    [encodeChar (val / 262144 % 64), encodeChar (val / 4096 % 64),
     encodeChar (val / 64 % 64), StdPadding]
  | b0 :: b1 :: b2 :: rest =>
    let val := b0.val * 65536 + b1.val * 256 + b2.val
    encodeChar (val / 262144 % 64) :: encodeChar (val / 4096 % 64) ::
      encodeChar (val / 64 % 64) :: encodeChar (val % 64) :: EncodeToString rest

/-- The decoder of RFC 4648 section 4, as `base64.StdEncoding.DecodeString`
applies it to padded input without line breaks: four characters become three
bytes, the last group may end in one or two `=`; `none` on malformed input. -/
def DecodeString : GoString → Option Bytes
  | [] => some []
  | c0 :: c1 :: c2 :: c3 :: rest =>
    if rest = [] ∧ c3 = StdPadding then
      if c2 = StdPadding then
        match decodeChar c0, decodeChar c1 with
        | some v0, some v1 =>
          some [Fin.ofNat ((v0 * 262144 + v1 * 4096) / 65536)]
        | _, _ => none
      else
        match decodeChar c0, decodeChar c1, decodeChar c2 with
        | some v0, some v1, some v2 =>
          some [Fin.ofNat ((v0 * 262144 + v1 * 4096 + v2 * 64) / 65536),
                Fin.ofNat ((v0 * 262144 + v1 * 4096 + v2 * 64) / 256)]
        | _, _, _ => none
    else
      match decodeChar c0, decodeChar c1, decodeChar c2, decodeChar c3, DecodeString rest with
      | some v0, some v1, some v2, some v3, some tail =>
        some (Fin.ofNat ((v0 * 262144 + v1 * 4096 + v2 * 64 + v3) / 65536) ::
              Fin.ofNat ((v0 * 262144 + v1 * 4096 + v2 * 64 + v3) / 256) ::
              Fin.ofNat (v0 * 262144 + v1 * 4096 + v2 * 64 + v3) :: tail)
      | _, _, _, _, _ => none
  | _ => none

/-! ## Basic authentication -/

/-- Go `http.basicAuth`: the base64 of `username + ":" + password`. -/
def basicAuth (username password : GoString) : GoString :=
  let auth := username ++ lit ":" ++ password
  EncodeToString auth

/-- Go `(*Request).SetBasicAuth`. -/
def Request.SetBasicAuth (r : Request) (username password : GoString) : Request :=
  { r with
    Header := r.Header.Set (lit "Authorization") (lit "Basic " ++ basicAuth username password) }

/-- Go `strings.Cut` with a one-byte separator: the text before and after the
first occurrence of `sep`, `none` when `sep` does not occur. -/
def Cut : GoString → Byte → Option (GoString × GoString)
  | [], _ => none
  | b :: s, sep =>
    if b = sep then some ([], s)
    else match Cut s sep with
      | some (before, after) => some (b :: before, after)
      | none => none

/-- Standard HTTP Basic Auth parsing on the server side (RFC 7617), in the
words of the specification: strip `"Basic "`, base64-decode, split at the
first colon.  `none` when the header value is not accepted. -/
def parseBasicAuth (auth : GoString) : Option (GoString × GoString) :=
  if auth.take 6 = lit "Basic " then
    match DecodeString (auth.drop 6) with
    | some c => Cut c 58
    | none => none
  else none

/-! ## The package -/

/-- The constant `timeoutInSecs` of the source. -/
def timeoutInSecs : Nat := 29

/-- The deferred closure of every operation: `f.Close()`, and one
`log.Println` when the close reports an error. -/
def deferredClose (w : World) (f : BodyStream) : List Event :=
  match w.close f with
  | some _ => [Event.Close f, Event.Println (lit "Error Deferring resp.Body.Close (io.Closer)")]
  | none => [Event.Close f]

/-- The statements every operation ends with, from `client.Do(request)` to
the last `return` (lines 32 to 50 for `Get`), the same text in all thirteen:
execute, return the error of a failed execution, defer the close, read the
whole body, return the error of a failed read, else return body and response.
The deferred close runs after the return values are fixed. -/
def doAndRead (w : World) (client : Client) (request : Request) : Run :=
  match w.roundTrip client request with
  | DoResult.fail err => ⟨[Event.Do client request], Outcome.returned none none (some err)⟩
  | DoResult.ok resp =>
    let (body, err) := w.readAll resp.Body
    match err with
    | some err =>
      ⟨[Event.Do client request, Event.ReadAll resp.Body] ++ deferredClose w resp.Body,
        Outcome.returned none none (some err)⟩
    | none =>
      ⟨[Event.Do client request, Event.ReadAll resp.Body] ++ deferredClose w resp.Body,
        Outcome.returned (some body) (some resp) none⟩

/-- Source `Get` (lines 19 to 52).  When `http.NewRequest` fails `request` is
nil, and the header statement placed before the `err` check dereferences it:
the first `match` below, in this and in the twelve other operations. -/
def Get (w : World) (url : GoString) : Run :=
  let timeout : Duration := timeoutInSecs * Second
  let client : Client := { Timeout := timeout }
  let (request, err) := NewRequest w (lit "GET") url none
  match request with
  | none => ⟨[], Outcome.panicked⟩
  | some request =>
    let request := { request with Header := request.Header.Set (lit "Content-type") (lit "application/json") }
    match err with
    | some err => ⟨[], Outcome.returned none none (some err)⟩
    | none => doAndRead w client request

/-- Source `GetWithBasicAuth` (lines 55 to 89). -/
def GetWithBasicAuth (w : World) (url : GoString) (username password : GoString) : Run :=
  let timeout : Duration := timeoutInSecs * Second
  let client : Client := { Timeout := timeout }
  let (request, err) := NewRequest w (lit "GET") url none
  match request with
  | none => ⟨[], Outcome.panicked⟩
  | some request =>
    let request := { request with Header := request.Header.Set (lit "Content-type") (lit "application/json") }
    let request := { request with Header := request.Header.Set (lit "Accept") (lit "application/json") }
    let request := request.SetBasicAuth username password
    match err with
    | some err => ⟨[], Outcome.returned none none (some err)⟩
    | none => doAndRead w client request

/-- Source `GetWithBearer` (lines 94 to 133); the token goes in with `Header.Add`. -/
def GetWithBearer (w : World) (url : GoString) (token : GoString) : Run :=
  let bearer := lit "Bearer " ++ token
  let timeout : Duration := timeoutInSecs * Second
  let client : Client := { Timeout := timeout }
  let (request, err) := NewRequest w (lit "GET") url none
  match request with
  | none => ⟨[], Outcome.panicked⟩
  | some request =>
    let request := { request with Header := request.Header.Set (lit "Content-type") (lit "application/json") }
    let request := { request with Header := request.Header.Set (lit "Accept") (lit "application/json") }
    let request := { request with Header := request.Header.Add (lit "Authorization") bearer }
    match err with
    | some err => ⟨[], Outcome.returned none none (some err)⟩
    | none => doAndRead w client request

/-- Source `GetWithBearerGraph` (lines 138 to 177). -/
def GetWithBearerGraph (w : World) (url : GoString) (token : GoString) : Run :=
  let bearer := lit "Bearer " ++ token
  let timeout : Duration := timeoutInSecs * Second
  let client : Client := { Timeout := timeout }
  let (request, err) := NewRequest w (lit "GET") url none
  match request with
  | none => ⟨[], Outcome.panicked⟩
  | some request =>
    let request := { request with Header := request.Header.Set (lit "Content-type") (lit "application/json") }
    let request := { request with Header := request.Header.Set (lit "ConsistencyLevel") (lit "eventual") }
    let request := { request with Header := request.Header.Add (lit "Authorization") bearer }
    match err with
    | some err => ⟨[], Outcome.returned none none (some err)⟩
    | none => doAndRead w client request

/-- Source `Post` (lines 182 to 220); the body is `bytes.NewBuffer(requestBody)`. -/
def Post (w : World) (url : GoString) (requestBody : Bytes) : Run :=
  let timeout : Duration := timeoutInSecs * Second
  let client : Client := { Timeout := timeout }
  let (request, err) := NewRequest w (lit "POST") url (some requestBody)
  match request with
  | none => ⟨[], Outcome.panicked⟩
  | some request =>
    let request := { request with Header := request.Header.Set (lit "Content-type") (lit "application/json") }
    match err with
    | some err => ⟨[], Outcome.returned none none (some err)⟩
    | none => doAndRead w client request

/-- Source `PostWithBasicAuth` (lines 222 to 261). -/
def PostWithBasicAuth (w : World) (url : GoString) (requestBody : Bytes) (u p : GoString) : Run :=
  let timeout : Duration := timeoutInSecs * Second
  let client : Client := { Timeout := timeout }
  let (request, err) := NewRequest w (lit "POST") url (some requestBody)
  match request with
  | none => ⟨[], Outcome.panicked⟩
  | some request =>
    let request := { request with Header := request.Header.Set (lit "Content-type") (lit "application/json") }
    let request := request.SetBasicAuth u p
    match err with
    | some err => ⟨[], Outcome.returned none none (some err)⟩
    | none => doAndRead w client request

/-- Source `PostWithBearer` (lines 266 to 309); the token goes in with `Header.Set`. -/
def PostWithBearer (w : World) (url : GoString) (requestBody : Bytes) (token : GoString) : Run :=
  let bearer := lit "Bearer " ++ token
  let timeout : Duration := timeoutInSecs * Second
  let client : Client := { Timeout := timeout }
  let (request, err) := NewRequest w (lit "POST") url (some requestBody)
  match request with
  | none => ⟨[], Outcome.panicked⟩
  | some request =>
    let request := { request with Header := request.Header.Set (lit "Content-type") (lit "application/json") }
    let request := { request with Header := request.Header.Set (lit "Authorization") bearer }
    match err with
    | some err => ⟨[], Outcome.returned none none (some err)⟩
    | none => doAndRead w client request

/-- Source `Put` (lines 314 to 352); the body is `bytes.NewBuffer(requestBody)`. -/
def Put (w : World) (url : GoString) (requestBody : Bytes) : Run :=
  let timeout : Duration := timeoutInSecs * Second
  let client : Client := { Timeout := timeout }
  let (request, err) := NewRequest w (lit "PUT") url (some requestBody)
  match request with
  | none => ⟨[], Outcome.panicked⟩
  | some request =>
    let request := { request with Header := request.Header.Set (lit "Content-type") (lit "application/json") }
    match err with
    | some err => ⟨[], Outcome.returned none none (some err)⟩
    | none => doAndRead w client request

/-- Source `PutWithBasicAuth` (lines 357 to 396). -/
def PutWithBasicAuth (w : World) (url : GoString) (requestBody : Bytes) (u p : GoString) : Run :=
  let timeout : Duration := timeoutInSecs * Second
  let client : Client := { Timeout := timeout }
  let (request, err) := NewRequest w (lit "PUT") url (some requestBody)
  match request with
  | none => ⟨[], Outcome.panicked⟩
  | some request =>
    let request := { request with Header := request.Header.Set (lit "Content-type") (lit "application/json") }
    let request := request.SetBasicAuth u p
    match err with
    | some err => ⟨[], Outcome.returned none none (some err)⟩
    | none => doAndRead w client request

/-- Source `PutWithBearer` (lines 401 to 443); the token goes in with `Header.Set`. -/
def PutWithBearer (w : World) (url : GoString) (requestBody : Bytes) (token : GoString) : Run :=
  let bearer := lit "Bearer " ++ token
  let timeout : Duration := timeoutInSecs * Second
  let client : Client := { Timeout := timeout }
  let (request, err) := NewRequest w (lit "PUT") url (some requestBody)
  match request with
  | none => ⟨[], Outcome.panicked⟩
  | some request =>
    let request := { request with Header := request.Header.Set (lit "Content-type") (lit "application/json") }
    let request := { request with Header := request.Header.Set (lit "Authorization") bearer }
    match err with
    | some err => ⟨[], Outcome.returned none none (some err)⟩
    | none => doAndRead w client request

/-- Source `Patch` (lines 449 to 487); the body is `bytes.NewBuffer(requestBody)`. -/
def Patch (w : World) (url : GoString) (requestBody : Bytes) : Run :=
  let timeout : Duration := timeoutInSecs * Second
  let client : Client := { Timeout := timeout }
  let (request, err) := NewRequest w (lit "PATCH") url (some requestBody)
  match request with
  | none => ⟨[], Outcome.panicked⟩
  | some request =>
    let request := { request with Header := request.Header.Set (lit "Content-type") (lit "application/json") }
    match err with
    | some err => ⟨[], Outcome.returned none none (some err)⟩
    | none => doAndRead w client request

/-- Source `PatchWithBasicAuth` (lines 492 to 531). -/
def PatchWithBasicAuth (w : World) (url : GoString) (requestBody : Bytes) (u p : GoString) : Run :=
  let timeout : Duration := timeoutInSecs * Second
  let client : Client := { Timeout := timeout }
  let (request, err) := NewRequest w (lit "PATCH") url (some requestBody)
  match request with
  | none => ⟨[], Outcome.panicked⟩
  | some request =>
    let request := { request with Header := request.Header.Set (lit "Content-type") (lit "application/json") }
    let request := request.SetBasicAuth u p
    match err with
    | some err => ⟨[], Outcome.returned none none (some err)⟩
    | none => doAndRead w client request

/-- Source `PatchWithBearer` (lines 536 to 578); the token goes in with `Header.Set`. -/
def PatchWithBearer (w : World) (url : GoString) (requestBody : Bytes) (token : GoString) : Run :=
  let bearer := lit "Bearer " ++ token
  let timeout : Duration := timeoutInSecs * Second
  let client : Client := { Timeout := timeout }
  let (request, err) := NewRequest w (lit "PATCH") url (some requestBody)
  match request with
  | none => ⟨[], Outcome.panicked⟩
  | some request =>
    let request := { request with Header := request.Header.Set (lit "Content-type") (lit "application/json") }
    let request := { request with Header := request.Header.Set (lit "Authorization") bearer }
    match err with
    | some err => ⟨[], Outcome.returned none none (some err)⟩
    | none => doAndRead w client request

/-! ## The thirteen operations as one family -/

/-- A call of one of the thirteen exported functions, with its arguments. -/
inductive Call where
  | Get (url : GoString)
  | GetWithBasicAuth (url username password : GoString)
  | GetWithBearer (url token : GoString)
  | GetWithBearerGraph (url token : GoString)
  | Post (url : GoString) (requestBody : Bytes)
  | PostWithBasicAuth (url : GoString) (requestBody : Bytes) (u p : GoString)
  | PostWithBearer (url : GoString) (requestBody : Bytes) (token : GoString)
  | Put (url : GoString) (requestBody : Bytes)
  | PutWithBasicAuth (url : GoString) (requestBody : Bytes) (u p : GoString)
  | PutWithBearer (url : GoString) (requestBody : Bytes) (token : GoString)
  | Patch (url : GoString) (requestBody : Bytes)
  | PatchWithBasicAuth (url : GoString) (requestBody : Bytes) (u p : GoString)
  | PatchWithBearer (url : GoString) (requestBody : Bytes) (token : GoString)
deriving DecidableEq, Repr

namespace Call

/-- Running a call is running the function it names. -/
def run (w : World) : Call → Run
  | Get url => Easyhttp.Get w url
  | GetWithBasicAuth url username password => Easyhttp.GetWithBasicAuth w url username password
  | GetWithBearer url token => Easyhttp.GetWithBearer w url token
  | GetWithBearerGraph url token => Easyhttp.GetWithBearerGraph w url token
  | Post url requestBody => Easyhttp.Post w url requestBody
  | PostWithBasicAuth url requestBody u p => Easyhttp.PostWithBasicAuth w url requestBody u p
  | PostWithBearer url requestBody token => Easyhttp.PostWithBearer w url requestBody token
  | Put url requestBody => Easyhttp.Put w url requestBody
  | PutWithBasicAuth url requestBody u p => Easyhttp.PutWithBasicAuth w url requestBody u p
  | PutWithBearer url requestBody token => Easyhttp.PutWithBearer w url requestBody token
  | Patch url requestBody => Easyhttp.Patch w url requestBody
  | PatchWithBasicAuth url requestBody u p => Easyhttp.PatchWithBasicAuth w url requestBody u p
  | PatchWithBearer url requestBody token => Easyhttp.PatchWithBearer w url requestBody token

/-- The URL argument of a call. -/
def url : Call → GoString
  | Get url => url
  | GetWithBasicAuth url _ _ => url
  | GetWithBearer url _ => url
  | GetWithBearerGraph url _ => url
  | Post url _ => url
  | PostWithBasicAuth url _ _ _ => url
  | PostWithBearer url _ _ => url
  | Put url _ => url
  | PutWithBasicAuth url _ _ _ => url
  | PutWithBearer url _ _ => url
  | Patch url _ => url
  | PatchWithBasicAuth url _ _ _ => url
  | PatchWithBearer url _ _ => url

/-- The HTTP method the NAME of the operation announces: `Get*` is GET,
`Post*` is POST, `Put*` is PUT, `Patch*` is PATCH. -/
def namedMethod : Call → GoString
  | Get _ => lit "GET"
  | GetWithBasicAuth _ _ _ => lit "GET"
  | GetWithBearer _ _ => lit "GET"
  | GetWithBearerGraph _ _ => lit "GET"
  | Post _ _ => lit "POST"
  | PostWithBasicAuth _ _ _ _ => lit "POST"
  | PostWithBearer _ _ _ => lit "POST"
  | Put _ _ => lit "PUT"
  | PutWithBasicAuth _ _ _ _ => lit "PUT"
  | PutWithBearer _ _ _ => lit "PUT"
  | Patch _ _ => lit "PATCH"
  | PatchWithBasicAuth _ _ _ _ => lit "PATCH"
  | PatchWithBearer _ _ _ => lit "PATCH"

/-- The `requestBody` argument of a call, `none` for the four GET operations,
which take none. -/
def requestBody : Call → Option Bytes
  | Get _ => none
  | GetWithBasicAuth _ _ _ => none
  | GetWithBearer _ _ => none
  | GetWithBearerGraph _ _ => none
  | Post _ b => some b
  | PostWithBasicAuth _ b _ _ => some b
  | PostWithBearer _ b _ => some b
  | Put _ b => some b
  | PutWithBasicAuth _ b _ _ => some b
  | PutWithBearer _ b _ => some b
  | Patch _ b => some b
  | PatchWithBasicAuth _ b _ _ => some b
  | PatchWithBearer _ b _ => some b

/-- The bearer token of a call, for the five bearer operations. -/
def token : Call → Option GoString
  | GetWithBearer _ t => some t
  | GetWithBearerGraph _ t => some t
  | PostWithBearer _ _ t => some t
  | PutWithBearer _ _ t => some t
  | PatchWithBearer _ _ t => some t
  | _ => none

/-- The user name and password of a call, for the four basic-auth operations. -/
def credentials : Call → Option (GoString × GoString)
  | GetWithBasicAuth _ u p => some (u, p)
  | PostWithBasicAuth _ _ u p => some (u, p)
  | PutWithBasicAuth _ _ u p => some (u, p)
  | PatchWithBasicAuth _ _ u p => some (u, p)
  | _ => none

end Call

/-- The requests a run handed to `client.Do`, with the client used, in order. -/
def executed (r : Run) : List (Client × Request) :=
  r.events.filterMap (fun e => match e with
    | Event.Do c q => some (c, q)
    | _ => none)

/-- The client every operation builds: a zero `http.Client` with the timeout
of 29 seconds. -/
def theClient : Client := { Timeout := timeoutInSecs * Second }

/-- The world `w` with the close of response bodies answered by `f`. -/
def World.withClose (w : World) (f : BodyStream → Option GoError) : World :=
  { w with close := f }

/-- The bodies a run closed, in order. -/
def closes (r : Run) : List BodyStream :=
  r.events.filterMap (fun e => match e with
    | Event.Close b => some b
    | _ => none)

/-- The response of the sample network on stream `n`. -/
def okResponse (n : Nat) : Response := ⟨200, ⟨[]⟩, ⟨n⟩⟩

/-- A world for the examples: every URL but `":"` parses, the text after the
scheme is kept as written (so it is for the URLs used below, which have no
empty port and nothing to escape), the network answers
every request with status 200 on stream 7, the read of stream 7 yields the
seven bytes of the JSON object with member a equal to 1, the read of any
other stream breaks after four of them with error 3, no close fails. -/
def sampleWorld : World where
  newRequestErr := fun _ url => if url = lit ":" then some ⟨1⟩ else none
  parseRest := fun rest => rest
  roundTrip := fun _ _ => DoResult.ok (okResponse 7)
  readAll := fun b => if b.handle = 7 then (lit "\x7b\"a\":1\x7d", none) else (lit "\x7b\"a\"", some ⟨3⟩)
  close := fun _ => none

/-- The sample world with a network that fails every request with error 2. -/
def offlineWorld : World :=
  { sampleWorld with roundTrip := fun _ _ => DoResult.fail ⟨2⟩ }

/-- The sample world with responses on stream 8, whose read breaks. -/
def brokenReadWorld : World :=
  { sampleWorld with roundTrip := fun _ _ => DoResult.ok (okResponse 8) }

/-- The seven bytes of the JSON object with member a equal to 1. -/
def echoBody : Bytes := lit "\x7b\"a\":1\x7d"

/-- The call `Post("http://h/echo", echoBody)`. -/
def echoCall : Call := Call.Post (lit "http://h/echo") echoBody

/-- The request `Post` builds for `echoCall`: the header key is stored in its
canonical spelling. -/
def echoRequest : Request :=
  ⟨lit "POST", ⟨lit "http", lit "//h/echo"⟩,
    ⟨[(lit "Content-Type", [lit "application/json"])]⟩, some echoBody⟩

/-- The request `Get` builds for `http://h/`. -/
def plainGetRequest : Request :=
  ⟨lit "GET", ⟨lit "http", lit "//h/"⟩, ⟨[(lit "Content-Type", [lit "application/json"])]⟩,
    none⟩

/-- The call `Patch("HTTP://H/x", echoBody)`, its scheme in capitals. -/
def shoutedCall : Call := Call.Patch (lit "HTTP://H/x") echoBody

/-- The request `Patch` builds for `shoutedCall`: the scheme is in lower case. -/
def shoutedRequest : Request :=
  ⟨lit "PATCH", ⟨lit "http", lit "//H/x"⟩,
    ⟨[(lit "Content-Type", [lit "application/json"])]⟩, some echoBody⟩

/-! ## Shared lemmas -/

theorem Parse_congr (w w1 : World) (url : GoString) (hp : w1.parseRest = w.parseRest) :
    Parse w1 url = Parse w url := by
  simp only [Parse, hp]

theorem doAndRead_fail (w : World) (client : Client) (request : Request) (e : GoError)
    (hdo : w.roundTrip client request = DoResult.fail e) :
    doAndRead w client request =
      ⟨[Event.Do client request], Outcome.returned none none (some e)⟩ := by
  simp [doAndRead, hdo]

theorem doAndRead_read_ok (w : World) (client : Client) (request : Request) (r : Response)
    (b : Bytes) (hdo : w.roundTrip client request = DoResult.ok r)
    (hrd : w.readAll r.Body = (b, none)) :
    doAndRead w client request =
      ⟨[Event.Do client request, Event.ReadAll r.Body] ++ deferredClose w r.Body,
        Outcome.returned (some b) (some r) none⟩ := by
  simp [doAndRead, hdo, hrd]

theorem doAndRead_read_fail (w : World) (client : Client) (request : Request) (r : Response)
    (b : Bytes) (e : GoError) (hdo : w.roundTrip client request = DoResult.ok r)
    (hrd : w.readAll r.Body = (b, some e)) :
    doAndRead w client request =
      ⟨[Event.Do client request, Event.ReadAll r.Body] ++ deferredClose w r.Body,
        Outcome.returned none none (some e)⟩ := by
  simp [doAndRead, hdo, hrd]

theorem executed_doAndRead (w : World) (client : Client) (request : Request) :
    executed (doAndRead w client request) = [(client, request)] := by
  cases hdo : w.roundTrip client request with
  | fail err => simp [doAndRead_fail w client request err hdo, executed]
  | ok resp =>
    rcases hrd : w.readAll resp.Body with ⟨body, err⟩
    cases err with
    | none =>
      rw [doAndRead_read_ok w client request resp body hdo hrd]
      unfold deferredClose executed
      cases w.close resp.Body <;> simp
    | some e =>
      rw [doAndRead_read_fail w client request resp body e hdo hrd]
      unfold deferredClose executed
      cases w.close resp.Body <;> simp

/-- Once `http.NewRequest` succeeds, every operation is the common tail run
on one request, the same in every world that parses URLs alike, with the
method of its name, the parsed URL and the body of the call. -/
theorem run_of_constructed (w : World) (c : Call) :
    ∃ req, req.Method = c.namedMethod ∧ req.URL = Parse w c.url ∧
      req.Body = c.requestBody ∧
      ∀ w1 : World, w1.parseRest = w.parseRest →
        w1.newRequestErr c.namedMethod c.url = none →
        c.run w1 = doAndRead w1 theClient req := by
  cases c <;>
    (refine ⟨?_, ?_, ?_, ?_, fun w1 hp hc => ?_⟩
     rotate_left 4
     · simp only [Call.namedMethod, Call.url] at hc
       simp only [Call.run, Get, GetWithBasicAuth,
         GetWithBearer, GetWithBearerGraph, Post, PostWithBasicAuth, PostWithBearer, Put,
         PutWithBasicAuth, PutWithBearer, Patch, PatchWithBasicAuth, PatchWithBearer,
         NewRequest, hc, theClient, Request.SetBasicAuth, Parse_congr w w1 _ hp]
       exact rfl
     all_goals rfl)

/-- When `http.NewRequest` fails, every operation panics before the `err`
check and performs no effect. -/
theorem run_of_failed_construction (w : World) (c : Call) (e : GoError)
    (hc : w.newRequestErr c.namedMethod c.url = some e) :
    c.run w = ⟨[], Outcome.panicked⟩ := by
  cases c <;>
    simp only [Call.namedMethod, Call.url] at hc <;>
    simp [Call.run, Get, GetWithBasicAuth,
      GetWithBearer, GetWithBearerGraph, Post, PostWithBasicAuth, PostWithBearer, Put,
      PutWithBasicAuth, PutWithBearer, Patch, PatchWithBasicAuth, PatchWithBearer,
      NewRequest, hc]

/-- A request was handed to `client.Do` only if `http.NewRequest` succeeded. -/
theorem constructed_of_executed (w : World) (c : Call) (x : Client × Request)
    (hex : x ∈ executed (c.run w)) : w.newRequestErr c.namedMethod c.url = none := by
  cases h : w.newRequestErr c.namedMethod c.url with
  | none => rfl
  | some e =>
    rw [run_of_failed_construction w c e h] at hex
    simp [executed] at hex

/-- What a run is, given the one request it handed to `client.Do`: the
common tail on that request. -/
theorem run_of_executed (w : World) (c : Call) (client : Client) (req : Request)
    (hex : (client, req) ∈ executed (c.run w)) : c.run w = doAndRead w client req := by
  have hc := constructed_of_executed w c (client, req) hex
  obtain ⟨q, -, -, -, hq⟩ := run_of_constructed w c
  rw [hq w rfl hc, executed_doAndRead] at hex
  simp only [List.mem_singleton, Prod.mk.injEq] at hex
  rw [hq w rfl hc, hex.1, hex.2]

theorem closes_doAndRead (w : World) (client : Client) (request : Request) (r : Response)
    (hdo : w.roundTrip client request = DoResult.ok r) :
    closes (doAndRead w client request) = [r.Body] := by
  rcases hrd : w.readAll r.Body with ⟨body, err⟩
  cases err with
  | none =>
    rw [doAndRead_read_ok w client request r body hdo hrd]
    unfold deferredClose closes
    cases w.close r.Body <;> simp
  | some e =>
    rw [doAndRead_read_fail w client request r body e hdo hrd]
    unfold deferredClose closes
    cases w.close r.Body <;> simp

/-! ## Header lemmas -/

theorem lookup_filter_other (l : List (GoString × List GoString)) (k k1 : GoString)
    (h : k1 ≠ k) :
    (l.filter (fun e => !(e.1 == k))).lookup k1 = l.lookup k1 := by
  induction l with
  | nil => rfl
  | cons e l ih =>
    obtain ⟨ek, ev⟩ := e
    by_cases hek : ek = k
    · subst hek
      have hne : (k1 == ek) = false := by simpa using h
      simp [List.filter_cons, List.lookup_cons, hne, ih]
    · have hne : (ek == k) = false := by simpa using hek
      simp only [List.filter_cons, hne, Bool.not_false, if_true, List.lookup_cons, ih]

theorem index_assign_same (h : Header) (k : GoString) (vs : List GoString) :
    (h.assign k vs).index k = some vs := by
  simp [Header.assign, Header.index, List.lookup_cons]

theorem index_assign_other (h : Header) (k k1 : GoString) (vs : List GoString)
    (hk : k1 ≠ k) : (h.assign k vs).index k1 = h.index k1 := by
  have hne : (k1 == k) = false := by simpa using hk
  simp only [Header.assign, Header.index, List.lookup_cons, hne]
  exact lookup_filter_other h.entries k k1 hk

theorem Values_empty (k : GoString) : (Header.mk []).Values k = [] := rfl

theorem Values_Set_same (h : Header) (k k1 v : GoString)
    (hk : CanonicalMIMEHeaderKey k1 = CanonicalMIMEHeaderKey k) :
    (h.Set k v).Values k1 = [v] := by
  simp [Header.Set, Header.Values, hk, index_assign_same]

theorem Values_Set_other (h : Header) (k k1 v : GoString)
    (hk : CanonicalMIMEHeaderKey k1 ≠ CanonicalMIMEHeaderKey k) :
    (h.Set k v).Values k1 = h.Values k1 := by
  simp [Header.Set, Header.Values, index_assign_other _ _ _ _ hk]

theorem Values_Add_same (h : Header) (k k1 v : GoString)
    (hk : CanonicalMIMEHeaderKey k1 = CanonicalMIMEHeaderKey k) :
    (h.Add k v).Values k1 = h.Values k1 ++ [v] := by
  simp [Header.Add, Header.Values, hk, index_assign_same]

theorem Values_Add_other (h : Header) (k k1 v : GoString)
    (hk : CanonicalMIMEHeaderKey k1 ≠ CanonicalMIMEHeaderKey k) :
    (h.Add k v).Values k1 = h.Values k1 := by
  simp [Header.Add, Header.Values, index_assign_other _ _ _ _ hk]

/-! ## Base64 and Basic-auth lemmas -/

theorem decodeChar_encodeChar (v : Nat) (h : v < 64) : decodeChar (encodeChar v) = some v := by
  have key : ∀ x : Fin 64, decodeChar (encodeChar x.val) = some x.val := by decide
  exact key ⟨v, h⟩

theorem encodeChar_ne_padding (v : Nat) (h : v < 64) : encodeChar v ≠ StdPadding := by
  have key : ∀ x : Fin 64, encodeChar x.val ≠ StdPadding := by decide
  exact key ⟨v, h⟩

theorem byte_of_val (n : Nat) (b : Byte) (h : n % 256 = b.val) : (Fin.ofNat n : Byte) = b :=
  Fin.ext h

/-- Decoding undoes encoding, for every byte sequence. -/
theorem DecodeString_EncodeToString (bs : Bytes) :
    DecodeString (EncodeToString bs) = some bs := by
  induction bs using EncodeToString.induct with
  | case1 => rfl
  | case2 b0 =>
    have h0 : b0.val * 65536 / 262144 % 64 < 64 := Nat.mod_lt _ (by decide)
    have h1 : b0.val * 65536 / 4096 % 64 < 64 := Nat.mod_lt _ (by decide)
    simp only [EncodeToString, DecodeString, decodeChar_encodeChar _ h0,
      decodeChar_encodeChar _ h1, and_self, if_true, Option.some.injEq, List.cons.injEq,
      and_true]
    apply byte_of_val
    have := b0.isLt
    omega
  | case3 b0 b1 =>
    have h0 : (b0.val * 65536 + b1.val * 256) / 262144 % 64 < 64 := Nat.mod_lt _ (by decide)
    have h1 : (b0.val * 65536 + b1.val * 256) / 4096 % 64 < 64 := Nat.mod_lt _ (by decide)
    have h2 : (b0.val * 65536 + b1.val * 256) / 64 % 64 < 64 := Nat.mod_lt _ (by decide)
    simp only [EncodeToString, DecodeString, decodeChar_encodeChar _ h0,
      decodeChar_encodeChar _ h1, decodeChar_encodeChar _ h2, encodeChar_ne_padding _ h2,
      and_self, if_true, if_false, Option.some.injEq, List.cons.injEq, and_true]
    have := b0.isLt
    have := b1.isLt
    refine ⟨byte_of_val _ _ ?_, byte_of_val _ _ ?_⟩ <;> omega
  | case4 b0 b1 b2 rest ih =>
    have h0 : (b0.val * 65536 + b1.val * 256 + b2.val) / 262144 % 64 < 64 :=
      Nat.mod_lt _ (by decide)
    have h1 : (b0.val * 65536 + b1.val * 256 + b2.val) / 4096 % 64 < 64 :=
      Nat.mod_lt _ (by decide)
    have h2 : (b0.val * 65536 + b1.val * 256 + b2.val) / 64 % 64 < 64 :=
      Nat.mod_lt _ (by decide)
    have h3 : (b0.val * 65536 + b1.val * 256 + b2.val) % 64 < 64 := Nat.mod_lt _ (by decide)
    simp only [EncodeToString, DecodeString, decodeChar_encodeChar _ h0,
      decodeChar_encodeChar _ h1, decodeChar_encodeChar _ h2, decodeChar_encodeChar _ h3,
      encodeChar_ne_padding _ h3, ih, and_false, if_false, Option.some.injEq,
      List.cons.injEq, and_true]
    have := b0.isLt
    have := b1.isLt
    have := b2.isLt
    refine ⟨byte_of_val _ _ ?_, byte_of_val _ _ ?_, byte_of_val _ _ ?_⟩ <;> omega

theorem Cut_at_first (u p : GoString) (sep : Byte) (h : sep ∉ u) :
    Cut (u ++ sep :: p) sep = some (u, p) := by
  induction u with
  | nil => simp [Cut]
  | cons a u ih =>
    have ha : a ≠ sep := fun e => h (by simp [e])
    have hu : sep ∉ u := fun e => h (by simp [e])
    simp [Cut, ha, ih hu]

/-- The server-side parse undoes `SetBasicAuth` when the user name holds no
colon. -/
theorem parseBasicAuth_basicAuth (u p : GoString) (h : (58 : Byte) ∉ u) :
    parseBasicAuth (lit "Basic " ++ basicAuth u p) = some (u, p) := by
  have ht : (lit "Basic " ++ basicAuth u p).take 6 = lit "Basic " := rfl
  have hd : (lit "Basic " ++ basicAuth u p).drop 6 = basicAuth u p := rfl
  have hl : u ++ lit ":" ++ p = u ++ (58 : Byte) :: p := by
    rw [List.append_assoc]
    rfl
  unfold parseBasicAuth
  rw [ht, hd]
  simp only [if_true, basicAuth, DecodeString_EncodeToString, hl]
  exact Cut_at_first u p 58 h

/-! ## The claims -/

/-- C1. For each of the thirteen operations and every input: when
`http.NewRequest` succeeds, the operation executes exactly one request, and
when that request is answered by a response `r` and reading the body of `r`
gives the bytes `b` with no error, the operation returns exactly `(b, r, nil)`:
a non-nil body equal to the payload, the very response received, and a nil
error. -/
theorem success_returns_payload_and_response (w : World) (c : Call) (r : Response)
    (b : Bytes) (hc : w.newRequestErr c.namedMethod c.url = none) :
    ∃ req, executed (c.run w) = [(theClient, req)] ∧
      (w.roundTrip theClient req = DoResult.ok r → w.readAll r.Body = (b, none) →
        (c.run w).outcome = Outcome.returned (some b) (some r) none) := by
  obtain ⟨q, -, -, -, hq⟩ := run_of_constructed w c
  refine ⟨q, by rw [hq w rfl hc, executed_doAndRead], fun hdo hrd => ?_⟩
  rw [hq w rfl hc, doAndRead_read_ok w theClient q r b hdo hrd]

/-- C1 at the echo scenario: `Post` of a JSON object to a server answering
200 with the same seven bytes returns them, the response and no error. -/
theorem success_returns_payload_and_response_witness :
    sampleWorld.newRequestErr echoCall.namedMethod echoCall.url = none ∧
    sampleWorld.roundTrip theClient echoRequest = DoResult.ok (okResponse 7) ∧
    sampleWorld.readAll (okResponse 7).Body = (echoBody, none) ∧
    (Call.run sampleWorld echoCall).outcome =
      Outcome.returned (some echoBody) (some (okResponse 7)) none := by
  refine ⟨by decide, by decide, by decide, ?_⟩
  obtain ⟨req, hex, h⟩ :=
    success_returns_payload_and_response sampleWorld echoCall (okResponse 7) echoBody
      (by decide)
  have h2 : executed (Call.run sampleWorld echoCall) = [(theClient, echoRequest)] := by decide
  rw [h2] at hex
  simp only [List.cons.injEq, Prod.mk.injEq, true_and, and_true] at hex
  subst hex
  exact h (by decide) (by decide)

/-- C2, as the code behaves. On the URL `":"`, which `http.NewRequest` rejects,
`Get`, `GetWithBearer` and `PostWithBasicAuth` do not return `(nil, nil, err)`:
they panic on the nil request before the `err` check is reached. -/
theorem failed_construction_panics_at_colon :
    Get sampleWorld (lit ":") = ⟨[], Outcome.panicked⟩ ∧
    GetWithBearer sampleWorld (lit ":") (lit "abc123") = ⟨[], Outcome.panicked⟩ ∧
    PostWithBasicAuth sampleWorld (lit ":") echoBody (lit "u") (lit "p") =
      ⟨[], Outcome.panicked⟩ ∧
    (Get sampleWorld (lit ":")).outcome ≠
      Outcome.returned none none (sampleWorld.newRequestErr (lit "GET") (lit ":")) := by
  decide

/-- C3. For each of the thirteen operations and every input: when
`http.NewRequest` succeeds, the operation executes exactly one request, with
the client of 29 seconds timeout, and when that execution fails with error `e`
(a network failure, or the timeout) the operation returns `(nil, nil, e)` and
that one execution is its only effect: no second attempt, nothing read or
closed. -/
theorem failed_execution_returns_error_once (w : World) (c : Call) (e : GoError)
    (hc : w.newRequestErr c.namedMethod c.url = none) :
    ∃ req, executed (c.run w) = [(theClient, req)] ∧
      theClient.Timeout = 29 * Second ∧
      (w.roundTrip theClient req = DoResult.fail e →
        (c.run w).outcome = Outcome.returned none none (some e) ∧
        (c.run w).events = [Event.Do theClient req]) := by
  obtain ⟨q, -, -, -, hq⟩ := run_of_constructed w c
  refine ⟨q, by rw [hq w rfl hc, executed_doAndRead], rfl, fun hdo => ?_⟩
  rw [hq w rfl hc, doAndRead_fail w theClient q e hdo]
  exact ⟨rfl, rfl⟩

/-- C3 at `Get` against a network that fails every request. -/
theorem failed_execution_returns_error_once_witness :
    offlineWorld.newRequestErr (Call.Get (lit "http://h/")).namedMethod
      (Call.Get (lit "http://h/")).url = none ∧
    offlineWorld.roundTrip theClient plainGetRequest = DoResult.fail ⟨2⟩ ∧
    (Call.run offlineWorld (Call.Get (lit "http://h/"))).outcome =
      Outcome.returned none none (some ⟨2⟩) ∧
    (Call.run offlineWorld (Call.Get (lit "http://h/"))).events =
      [Event.Do theClient plainGetRequest] := by
  refine ⟨by decide, by decide, ?_⟩
  obtain ⟨req, hex, -, h⟩ :=
    failed_execution_returns_error_once offlineWorld (Call.Get (lit "http://h/")) ⟨2⟩
      (by decide)
  have h2 : executed (Call.run offlineWorld (Call.Get (lit "http://h/"))) =
      [(theClient, plainGetRequest)] := by decide
  rw [h2] at hex
  simp only [List.cons.injEq, Prod.mk.injEq, true_and, and_true] at hex
  subst hex
  exact h (by decide)

/-- C4. For each of the thirteen operations and every input: when
`http.NewRequest` succeeds, the operation executes exactly one request, and
when that request is answered by a response `r`, whatever its status code,
and reading the body of `r` stops with error `e` after the bytes `sofar`, the
operation returns `(nil, nil, e)`: the read error, no response and none of
the bytes read. -/
theorem failed_read_returns_error_only (w : World) (c : Call) (r : Response)
    (sofar : Bytes) (e : GoError) (hc : w.newRequestErr c.namedMethod c.url = none) :
    ∃ req, executed (c.run w) = [(theClient, req)] ∧
      (w.roundTrip theClient req = DoResult.ok r → w.readAll r.Body = (sofar, some e) →
        (c.run w).outcome = Outcome.returned none none (some e)) := by
  obtain ⟨q, -, -, -, hq⟩ := run_of_constructed w c
  refine ⟨q, by rw [hq w rfl hc, executed_doAndRead], fun hdo hrd => ?_⟩
  rw [hq w rfl hc, doAndRead_read_fail w theClient q r sofar e hdo hrd]

/-- C4 at `Post` against a server answering 200 on a stream whose read breaks
after four bytes. -/
theorem failed_read_returns_error_only_witness :
    brokenReadWorld.newRequestErr echoCall.namedMethod echoCall.url = none ∧
    brokenReadWorld.roundTrip theClient echoRequest = DoResult.ok (okResponse 8) ∧
    (okResponse 8).StatusCode = 200 ∧
    brokenReadWorld.readAll (okResponse 8).Body = (lit "\x7b\"a\"", some ⟨3⟩) ∧
    (Call.run brokenReadWorld echoCall).outcome = Outcome.returned none none (some ⟨3⟩) := by
  refine ⟨by decide, by decide, by decide, by decide, ?_⟩
  obtain ⟨req, hex, h⟩ :=
    failed_read_returns_error_only brokenReadWorld echoCall (okResponse 8) (lit "\x7b\"a\"")
      ⟨3⟩ (by decide)
  have h2 : executed (Call.run brokenReadWorld echoCall) = [(theClient, echoRequest)] := by
    decide
  rw [h2] at hex
  simp only [List.cons.injEq, Prod.mk.injEq, true_and, and_true] at hex
  subst hex
  exact h (by decide) (by decide)

/-- C9, as the code behaves. `Patch` on `HTTP://H/x` executes one request,
whose method is PATCH and whose body is the body of the caller, but whose
URL is not the string of the caller: `http.NewRequest` stores the parsed URL,
with the scheme in lower case, which reads `http://H/x`. -/
theorem executed_url_is_not_the_string_given :
    executed (Call.run sampleWorld shoutedCall) = [(theClient, shoutedRequest)] ∧
    shoutedRequest.URL.String = lit "http://H/x" ∧
    ¬ ∃ req, executed (Call.run sampleWorld shoutedCall) = [(theClient, req)] ∧
      req.Method = shoutedCall.namedMethod ∧ req.URL.String = shoutedCall.url ∧
      req.Body = shoutedCall.requestBody := by
  have h2 : executed (Call.run sampleWorld shoutedCall) = [(theClient, shoutedRequest)] := by
    decide
  refine ⟨h2, by decide, ?_⟩
  rintro ⟨req, hex, -, hurl, -⟩
  rw [h2] at hex
  simp only [List.cons.injEq, Prod.mk.injEq, true_and, and_true] at hex
  subst hex
  revert hurl
  decide

/-- C9, amended. For each of the thirteen operations, when `http.NewRequest`
succeeds exactly one request is executed; its method is the one the name of
the operation announces, its URL is the URL `http.NewRequest` parses from
the URL string of the caller, which the operation hands over unchanged, and
its body is the `requestBody` of the caller for POST, PUT and PATCH and
absent for the four GET operations. -/
theorem executed_request_has_method_url_body (w : World) (c : Call)
    (hc : w.newRequestErr c.namedMethod c.url = none) :
    ∃ req, executed (c.run w) = [(theClient, req)] ∧ req.Method = c.namedMethod ∧
      req.URL = Parse w c.url ∧ req.Body = c.requestBody := by
  obtain ⟨q, hm, hu, hb, hq⟩ := run_of_constructed w c
  exact ⟨q, by rw [hq w rfl hc, executed_doAndRead], hm, hu, hb⟩

/-- C9 at `PutWithBearer`. -/
theorem executed_request_has_method_url_body_witness :
    ∃ req, executed (Call.run sampleWorld
        (Call.PutWithBearer (lit "http://h/x") (lit "body") (lit "abc123"))) = [(theClient, req)] ∧
      req.Method = lit "PUT" ∧ req.URL = ⟨lit "http", lit "//h/x"⟩ ∧
      req.Body = some (lit "body") :=
  executed_request_has_method_url_body sampleWorld
    (Call.PutWithBearer (lit "http://h/x") (lit "body") (lit "abc123")) (by decide)

/-- C10. For each of the thirteen operations, once the request handed to
`client.Do` is answered by a response `r`, the body of `r` is closed exactly
once whether the read succeeds or fails, and the close decides nothing
else: with a close that fails (`g`) in place of one that succeeds (`f`), the
returned triple is the same and the effects are the same followed by the one
logged line. -/
theorem close_failure_only_logs (w : World) (c : Call) (client : Client) (req : Request)
    (r : Response) (f g : BodyStream → Option GoError)
    (hex : (client, req) ∈ executed (c.run w))
    (hdo : w.roundTrip client req = DoResult.ok r)
    (hf : f r.Body = none) (hg : g r.Body ≠ none) :
    closes (c.run (w.withClose f)) = [r.Body] ∧
      closes (c.run (w.withClose g)) = [r.Body] ∧
      (c.run (w.withClose g)).outcome = (c.run (w.withClose f)).outcome ∧
      (c.run (w.withClose g)).events = (c.run (w.withClose f)).events ++
        [Event.Println (lit "Error Deferring resp.Body.Close (io.Closer)")] := by
  have hc := constructed_of_executed w c (client, req) hex
  obtain ⟨q, -, -, -, hq⟩ := run_of_constructed w c
  have hcq : client = theClient ∧ req = q := by
    have h := hex
    rw [hq w rfl hc, executed_doAndRead] at h
    simpa only [List.mem_singleton, Prod.mk.injEq] using h
  obtain ⟨rfl, rfl⟩ := hcq
  have hrf : c.run (w.withClose f) = doAndRead (w.withClose f) theClient req := hq _ rfl hc
  have hrg : c.run (w.withClose g) = doAndRead (w.withClose g) theClient req := hq _ rfl hc
  have hdf : (w.withClose f).roundTrip theClient req = DoResult.ok r := hdo
  have hdg : (w.withClose g).roundTrip theClient req = DoResult.ok r := hdo
  have key : doAndRead (w.withClose g) theClient req =
      ⟨(doAndRead (w.withClose f) theClient req).events ++
          [Event.Println (lit "Error Deferring resp.Body.Close (io.Closer)")],
        (doAndRead (w.withClose f) theClient req).outcome⟩ := by
    obtain ⟨e, hge⟩ : ∃ e, g r.Body = some e := by
      cases hgb : g r.Body with
      | none => exact absurd hgb hg
      | some e => exact ⟨e, rfl⟩
    rcases hrd : w.readAll r.Body with ⟨body, err⟩
    cases err with
    | none =>
      rw [doAndRead_read_ok (w.withClose f) theClient req r body hdf hrd,
        doAndRead_read_ok (w.withClose g) theClient req r body hdg hrd]
      simp [deferredClose, World.withClose, hf, hge]
    | some e1 =>
      rw [doAndRead_read_fail (w.withClose f) theClient req r body e1 hdf hrd,
        doAndRead_read_fail (w.withClose g) theClient req r body e1 hdg hrd]
      simp [deferredClose, World.withClose, hf, hge]
  refine ⟨by rw [hrf]; exact closes_doAndRead _ _ _ _ hdf,
    by rw [hrg]; exact closes_doAndRead _ _ _ _ hdg, ?_, ?_⟩
  · rw [hrf, hrg, key]
  · rw [hrf, hrg, key]

/-- C10 at `Post` with a read that breaks: a failing close changes nothing
but the log. -/
theorem close_failure_only_logs_witness :
    (Call.run (brokenReadWorld.withClose (fun _ => some ⟨4⟩)) echoCall).outcome =
      (Call.run (brokenReadWorld.withClose (fun _ => none)) echoCall).outcome ∧
    closes (Call.run (brokenReadWorld.withClose (fun _ => some ⟨4⟩)) echoCall) = [⟨8⟩] :=
  ⟨(close_failure_only_logs brokenReadWorld echoCall theClient echoRequest (okResponse 8)
      (fun _ => none) (fun _ => some ⟨4⟩) (by decide) (by decide) (by decide) (by decide)).2.2.1,
   (close_failure_only_logs brokenReadWorld echoCall theClient echoRequest (okResponse 8)
      (fun _ => none) (fun _ => some ⟨4⟩) (by decide) (by decide) (by decide) (by decide)).2.1⟩

/-- C5. For each of the five bearer operations and every token, the empty one
included: when `http.NewRequest` succeeds, the one request executed carries
under `Authorization` exactly one value, the bytes of `"Bearer "` followed by
the bytes of the token as given. -/
theorem bearer_sets_authorization (w : World) (c : Call) (t : GoString)
    (ht : c.token = some t)
    (hc : w.newRequestErr c.namedMethod c.url = none) :
    ∃ req, executed (c.run w) = [(theClient, req)] ∧
      req.Header.Values (lit "Authorization") = [lit "Bearer " ++ t] := by
  cases c <;> simp only [Call.token, Option.some.injEq, reduceCtorEq] at ht <;>
    subst ht <;>
    simp only [Call.namedMethod, Call.url] at hc <;>
    simp only [Call.run, Get, GetWithBasicAuth,
      GetWithBearer, GetWithBearerGraph, Post, PostWithBasicAuth, PostWithBearer, Put,
      PutWithBasicAuth, PutWithBearer, Patch, PatchWithBasicAuth, PatchWithBearer,
      NewRequest, Request.SetBasicAuth, hc] <;>
    refine ⟨_, executed_doAndRead _ _ _, ?_⟩
  · rw [Values_Add_same _ _ _ _ rfl, Values_Set_other _ _ _ _ (by decide),
      Values_Set_other _ _ _ _ (by decide)]
    rfl
  · rw [Values_Add_same _ _ _ _ rfl, Values_Set_other _ _ _ _ (by decide),
      Values_Set_other _ _ _ _ (by decide)]
    rfl
  · exact Values_Set_same _ _ _ _ rfl
  · exact Values_Set_same _ _ _ _ rfl
  · exact Values_Set_same _ _ _ _ rfl

/-- C5 at `GetWithBearer` with the empty token: the value is `"Bearer "`. -/
theorem bearer_sets_authorization_witness :
    ∃ req, executed (Call.run sampleWorld (Call.GetWithBearer (lit "http://h/") [])) =
        [(theClient, req)] ∧
      req.Header.Values (lit "Authorization") = [lit "Bearer " ++ []] :=
  bearer_sets_authorization sampleWorld (Call.GetWithBearer (lit "http://h/") []) []
    (by decide) (by decide)

/-- C6. For each of the four basic-auth operations, every user name without a
colon and every password: when `http.NewRequest` succeeds, the one request
executed carries under `Authorization` the single value `"Basic "` followed by
the standard base64 of `username + ":" + password`, and the standard
server-side parse of that value gives back the same user name and password. -/
theorem basic_auth_is_recovered_by_server (w : World) (c : Call) (u p : GoString)
    (hcred : c.credentials = some (u, p))
    (hcolon : (58 : Byte) ∉ u)
    (hc : w.newRequestErr c.namedMethod c.url = none) :
    ∃ req, executed (c.run w) = [(theClient, req)] ∧
      req.Header.Values (lit "Authorization") =
        [lit "Basic " ++ EncodeToString (u ++ lit ":" ++ p)] ∧
      parseBasicAuth (req.Header.Get (lit "Authorization")) = some (u, p) := by
  have hv : ∀ h : Header, (h.Set (lit "Authorization") (lit "Basic " ++ basicAuth u p)).Values
      (lit "Authorization") = [lit "Basic " ++ basicAuth u p] :=
    fun h => Values_Set_same h _ _ _ rfl
  have hg : ∀ h : Header, (h.Set (lit "Authorization") (lit "Basic " ++ basicAuth u p)).Get
      (lit "Authorization") = lit "Basic " ++ basicAuth u p := by
    intro h
    simp only [Header.Get, hv h]
  cases c <;> simp only [Call.credentials, Option.some.injEq, reduceCtorEq, Prod.mk.injEq] at hcred <;>
    obtain ⟨rfl, rfl⟩ := hcred <;>
    simp only [Call.namedMethod, Call.url] at hc <;>
    simp only [Call.run, Get, GetWithBasicAuth,
      GetWithBearer, GetWithBearerGraph, Post, PostWithBasicAuth, PostWithBearer, Put,
      PutWithBasicAuth, PutWithBearer, Patch, PatchWithBasicAuth, PatchWithBearer,
      NewRequest, Request.SetBasicAuth, hc] <;>
    exact ⟨_, executed_doAndRead _ _ _, hv _, by rw [hg]; exact parseBasicAuth_basicAuth _ _ hcolon⟩

/-- C6 at `GetWithBasicAuth` with the credentials of RFC 7617. -/
theorem basic_auth_is_recovered_by_server_witness :
    (58 : Byte) ∉ lit "Aladdin" ∧
    ∃ req, executed (Call.run sampleWorld
        (Call.GetWithBasicAuth (lit "http://h/") (lit "Aladdin") (lit "open sesame"))) =
        [(theClient, req)] ∧
      req.Header.Values (lit "Authorization") =
        [lit "Basic " ++ EncodeToString (lit "Aladdin" ++ lit ":" ++ lit "open sesame")] ∧
      parseBasicAuth (req.Header.Get (lit "Authorization")) =
        some (lit "Aladdin", lit "open sesame") :=
  ⟨by decide, basic_auth_is_recovered_by_server sampleWorld
    (Call.GetWithBasicAuth (lit "http://h/") (lit "Aladdin") (lit "open sesame"))
    (lit "Aladdin") (lit "open sesame") (by decide) (by decide) (by decide)⟩

/-- C7, as the code behaves. The one request `Get` executes for
`http://h/` carries `Content-Type: application/json` and nothing else: no
`Accept` header, unlike the requests of `GetWithBasicAuth` and
`GetWithBearer` for the same URL. -/
theorem get_carries_no_accept :
    executed (Get sampleWorld (lit "http://h/")) =
      [(theClient, plainGetRequest)] ∧
    plainGetRequest.Header.Values (lit "Accept") = [] ∧
    plainGetRequest.Header.entries = [(lit "Content-Type", [lit "application/json"])] ∧
    (executed (GetWithBasicAuth sampleWorld (lit "http://h/") (lit "u") (lit "p"))).map
      (fun x => x.2.Header.Values (lit "Accept")) = [[lit "application/json"]] ∧
    (executed (GetWithBearer sampleWorld (lit "http://h/") (lit "abc123"))).map
      (fun x => x.2.Header.Values (lit "Accept")) = [[lit "application/json"]] := by
  decide

/-- The part of C7 the code keeps: the requests of `GetWithBasicAuth` and
`GetWithBearer` carry `Accept: application/json` and
`Content-type: application/json`. -/
theorem authenticated_gets_carry_accept (w : World) (url a b : GoString)
    (hc : w.newRequestErr (lit "GET") url = none) :
    (∃ req, executed (GetWithBasicAuth w url a b) = [(theClient, req)] ∧
      req.Header.Values (lit "Accept") = [lit "application/json"] ∧
      req.Header.Values (lit "Content-type") = [lit "application/json"]) ∧
    (∃ req, executed (GetWithBearer w url a) = [(theClient, req)] ∧
      req.Header.Values (lit "Accept") = [lit "application/json"] ∧
      req.Header.Values (lit "Content-type") = [lit "application/json"]) := by
  constructor <;>
    simp only [Call.run, Get, GetWithBasicAuth,
      GetWithBearer, GetWithBearerGraph, Post, PostWithBasicAuth, PostWithBearer, Put,
      PutWithBasicAuth, PutWithBearer, Patch, PatchWithBasicAuth, PatchWithBearer,
      NewRequest, Request.SetBasicAuth, hc] <;>
    refine ⟨_, executed_doAndRead _ _ _, ?_, ?_⟩
  · rw [Values_Set_other _ _ _ _ (by decide)]
    exact Values_Set_same _ _ _ _ rfl
  · rw [Values_Set_other _ _ _ _ (by decide), Values_Set_other _ _ _ _ (by decide)]
    exact Values_Set_same _ _ _ _ rfl
  · rw [Values_Add_other _ _ _ _ (by decide)]
    exact Values_Set_same _ _ _ _ rfl
  · rw [Values_Add_other _ _ _ _ (by decide), Values_Set_other _ _ _ _ (by decide)]
    exact Values_Set_same _ _ _ _ rfl

/-- C8. For every URL and token, when `http.NewRequest` succeeds:
`GetWithBearerGraph` executes one request, which carries `ConsistencyLevel`
with the single value `eventual` and no `Accept` header; `GetWithBearer`
executes one request with the same client, which carries
`Accept: application/json` and no `ConsistencyLevel`; the two requests have
the same method GET, the same URL (the one parsed from `url`), no body, the
same
`Content-type: application/json` and `Authorization: Bearer <token>`, and the
same values under every header name other than those two. -/
theorem graph_variant_swaps_accept_for_consistency (w : World) (url token : GoString)
    (hc : w.newRequestErr (lit "GET") url = none) :
    ∃ g b, executed (GetWithBearerGraph w url token) = [(theClient, g)] ∧
      executed (GetWithBearer w url token) = [(theClient, b)] ∧
      g.Header.Values (lit "ConsistencyLevel") = [lit "eventual"] ∧
      g.Header.Values (lit "Accept") = [] ∧
      b.Header.Values (lit "ConsistencyLevel") = [] ∧
      b.Header.Values (lit "Accept") = [lit "application/json"] ∧
      g.Method = lit "GET" ∧ b.Method = lit "GET" ∧
      g.URL = Parse w url ∧ b.URL = Parse w url ∧
      g.Body = none ∧ b.Body = none ∧
      g.Header.Values (lit "Content-type") = [lit "application/json"] ∧
      b.Header.Values (lit "Content-type") = [lit "application/json"] ∧
      g.Header.Values (lit "Authorization") = [lit "Bearer " ++ token] ∧
      b.Header.Values (lit "Authorization") = [lit "Bearer " ++ token] ∧
      ∀ k : GoString,
        CanonicalMIMEHeaderKey k ≠ CanonicalMIMEHeaderKey (lit "ConsistencyLevel") →
        CanonicalMIMEHeaderKey k ≠ CanonicalMIMEHeaderKey (lit "Accept") →
        g.Header.Values k = b.Header.Values k := by
  simp only [Call.run, Get, GetWithBasicAuth,
      GetWithBearer, GetWithBearerGraph, Post, PostWithBasicAuth, PostWithBearer, Put,
      PutWithBasicAuth, PutWithBearer, Patch, PatchWithBasicAuth, PatchWithBearer,
      NewRequest, Request.SetBasicAuth, hc]
  refine ⟨_, _, executed_doAndRead _ _ _, executed_doAndRead _ _ _, ?_, ?_, ?_, ?_, rfl, rfl,
    rfl, rfl, rfl, rfl, ?_, ?_, ?_, ?_, ?_⟩
  · rw [Values_Add_other _ _ _ _ (by decide)]
    exact Values_Set_same _ _ _ _ rfl
  · rw [Values_Add_other _ _ _ _ (by decide), Values_Set_other _ _ _ _ (by decide),
      Values_Set_other _ _ _ _ (by decide)]
    rfl
  · rw [Values_Add_other _ _ _ _ (by decide), Values_Set_other _ _ _ _ (by decide),
      Values_Set_other _ _ _ _ (by decide)]
    rfl
  · rw [Values_Add_other _ _ _ _ (by decide)]
    exact Values_Set_same _ _ _ _ rfl
  · rw [Values_Add_other _ _ _ _ (by decide), Values_Set_other _ _ _ _ (by decide)]
    exact Values_Set_same _ _ _ _ rfl
  · rw [Values_Add_other _ _ _ _ (by decide), Values_Set_other _ _ _ _ (by decide)]
    exact Values_Set_same _ _ _ _ rfl
  · rw [Values_Add_same _ _ _ _ rfl, Values_Set_other _ _ _ _ (by decide),
      Values_Set_other _ _ _ _ (by decide)]
    rfl
  · rw [Values_Add_same _ _ _ _ rfl, Values_Set_other _ _ _ _ (by decide),
      Values_Set_other _ _ _ _ (by decide)]
    rfl
  · intro k hcl hac
    by_cases hau : CanonicalMIMEHeaderKey k = CanonicalMIMEHeaderKey (lit "Authorization")
    · rw [Values_Add_same _ _ _ _ hau, Values_Add_same _ _ _ _ hau,
        Values_Set_other _ _ _ _ hcl, Values_Set_other _ _ _ _ hac]
    · rw [Values_Add_other _ _ _ _ hau, Values_Add_other _ _ _ _ hau,
        Values_Set_other _ _ _ _ hcl, Values_Set_other _ _ _ _ hac]

/-- C8 at the token `abc123`. -/
theorem graph_variant_swaps_accept_for_consistency_witness :
    ∃ g b, executed (GetWithBearerGraph sampleWorld (lit "http://h/") (lit "abc123")) =
        [(theClient, g)] ∧
      executed (GetWithBearer sampleWorld (lit "http://h/") (lit "abc123")) = [(theClient, b)] ∧
      g.Header.Values (lit "ConsistencyLevel") = [lit "eventual"] ∧
      g.Header.Values (lit "Accept") = [] ∧
      b.Header.Values (lit "ConsistencyLevel") = [] ∧
      b.Header.Values (lit "Accept") = [lit "application/json"] := by
  obtain ⟨g, b, h1, h2, h3, h4, h5, h6, -⟩ :=
    graph_variant_swaps_accept_for_consistency sampleWorld (lit "http://h/") (lit "abc123")
      (by decide)
  exact ⟨g, b, h1, h2, h3, h4, h5, h6⟩

end Easyhttp
